import Mathlib

/-! # urg3d_tcpclient: buffered TCP client

A shallow embedding of `src/src/urg3d_tcpclient.c` (POSIX branch of the
`URG3D_WINDOWS_OS` conditionals) and theorems about it.

* C `int` values are `Int`; bytes (`char` cells) are `Nat` byte patterns 0..255.
* The operating system is an explicit `World` value that is threaded through
  every call: it holds what future `recv` calls will find, the file status
  flags of the socket, the set of open descriptors and a chronological trace
  of the system calls performed.
* The ring buffer (`urg3d_ring_*`) and the constants of `urg3d_tcpclient.h`
  are not part of the source file; the ring buffer is modelled from the
  specification and `URG3D_BUFSIZE` is a parameter.
-/

namespace Urg3d

/-! ## Constants -/

/-- The `enum { Invalid_desc = -1 }` of the source. -/
def Invalid_desc : Int := -1

/-- Flag `MSG_DONTWAIT` of `<sys/socket.h>` (Linux value). -/
def MSG_DONTWAIT : Int := 64

/-- Flag `O_NONBLOCK` of `<fcntl.h>` (Linux value, octal 04000). -/
def O_NONBLOCK : Nat := 2048

/-- Value `EINPROGRESS` of `<errno.h>` (Linux value). -/
def EINPROGRESS : Int := 115

/-- Value `INADDR_NONE` of `<netinet/in.h>`. -/
def INADDR_NONE : Nat := 4294967295

/-- Value `AF_INET` of `<sys/socket.h>`. -/
def AF_INET : Int := 2

/-! ## Ring buffer -/

/-- Modelled from the spec: the ring buffer type `urg3d_ring_t`, whose
declaration and functions are not in the source file. A fixed-capacity FIFO
byte store: `data` are the bytes held, oldest first. -/
structure Ring where
  data : List Nat
  capacity : Nat
  deriving DecidableEq

/-- Modelled from the spec: `urg3d_ring_initialize`, not in the source file.
The store starts empty; its capacity is the power of two given by the shift. -/
def urg3d_ring_initialize (shift_length : Nat) : Ring :=
  { data := [], capacity := 2 ^ shift_length }

/-- Modelled from the spec: `urg3d_ring_size`, not in the source file.
The current occupied byte count. -/
def urg3d_ring_size (r : Ring) : Int := r.data.length

/-- Modelled from the spec: `urg3d_ring_write`, not in the source file.
Copies `min(n, free_space)` bytes in and returns the number written. -/
def urg3d_ring_write (r : Ring) (data : List Nat) (n : Int) : Ring × Int :=
  let put := data.take (min n.toNat (r.capacity - r.data.length))
  ({ r with data := r.data ++ put }, put.length)

/-- Modelled from the spec: `urg3d_ring_read`, not in the source file.
Copies `min(n, size)` bytes out in FIFO order and returns them with their count. -/
def urg3d_ring_read (r : Ring) (n : Int) : Ring × List Nat × Int :=
  let got := r.data.take n.toNat
  ({ r with data := r.data.drop n.toNat }, got, got.length)

/-! ## Client handle and operating system -/

/-- The handle `urg3d_tcpclient_t`, with the fields the source file uses. -/
structure Client where
  sock_desc : Int
  pushed_back : Int
  rb : Ring
  sock_addr_size : Int
  sin_family : Int
  sin_port : Int
  s_addr : Nat
  deriving DecidableEq

/-- A system call as recorded in the trace of the world. -/
inductive SysCall where
  | socket (ret : Int)
  | fcntl_getfl (fd : Int) (ret : Nat)
  | fcntl_setfl (fd : Int) (flags : Nat)
  | connect (fd : Int) (ret : Int)
  | select (nfds : Int) (ret : Int)
  | getsockopt (fd : Int) (ret : Int) (optval : Int)
  | close (fd : Int)
  | recv (fd : Int) (len : Int) (flags : Int) (ret : Int) (bytes : List Nat)
  | setsockopt (fd : Int) (tv_sec : Int) (tv_usec : Int)
  deriving DecidableEq

/-- What one future `recv` call finds at the socket: queued bytes, or a
failure with result `-code` (0 is an orderly shutdown, -1 an error). -/
inductive RecvEvent where
  | data (bs : List Nat)
  | fail (code : Nat)
  deriving DecidableEq

/-- The operating system side of one client socket. -/
structure World where
  incoming : List RecvEvent
  fl : Nat
  open_fds : List Int
  trace : List SysCall
  deriving DecidableEq

/-- System call `recv`: at most `len` of the queued bytes are delivered, the
rest stay queued; an exhausted script answers -1 (nothing arrives). -/
def sys_recv (w : World) (sock len flags : Int) : Int × List Nat × World :=
  match w.incoming with
  | [] => (-1, [], { w with trace := w.trace ++ [SysCall.recv sock len flags (-1) []] })
  | RecvEvent.fail c :: rest =>
    (-(c : Int), [],
      { w with incoming := rest, trace := w.trace ++ [SysCall.recv sock len flags (-(c : Int)) []] })
  | RecvEvent.data bs :: rest =>
    let got := bs.take len.toNat
    let left := bs.drop len.toNat
    ((got.length : Int), got,
      { w with
        incoming := if left = [] then rest else RecvEvent.data left :: rest,
        trace := w.trace ++ [SysCall.recv sock len flags (got.length : Int) got] })

/-- System call `setsockopt(sock, SOL_SOCKET, SO_RCVTIMEO, &tv, ..)`. -/
def sys_setsockopt (w : World) (sock tv_sec tv_usec : Int) : World :=
  { w with trace := w.trace ++ [SysCall.setsockopt sock tv_sec tv_usec] }

/-- System call `close`. -/
def sys_close (w : World) (fd : Int) : World :=
  { w with open_fds := w.open_fds.filter (fun d => d ≠ fd), trace := w.trace ++ [SysCall.close fd] }

/-- System call `fcntl(fd, F_GETFL, 0)`. -/
def sys_fcntl_getfl (w : World) (fd : Int) : Nat × World :=
  (w.fl, { w with trace := w.trace ++ [SysCall.fcntl_getfl fd w.fl] })

/-- System call `fcntl(fd, F_SETFL, flags)`. -/
def sys_fcntl_setfl (w : World) (fd : Int) (flags : Nat) : World :=
  { w with fl := flags, trace := w.trace ++ [SysCall.fcntl_setfl fd flags] }

/-- The bytes delivered by the `recv` calls of a trace, in order. -/
def recvBytes : List SysCall → List Nat
  | [] => []
  | SysCall.recv _ _ _ _ bytes :: rest => bytes ++ recvBytes rest
  | _ :: rest => recvBytes rest

/-- Whether a trace entry is a socket operation on the data path. -/
def isSocketOp : SysCall → Bool
  | SysCall.recv _ _ _ _ _ => true
  | SysCall.setsockopt _ _ _ => true
  | _ => false

/-! ## Static helpers of the source -/

/-- Source: `urg3d_tcpclient_buffer_init`. The constant `URG3D_RB_BITSHIFT`
of the missing header is the parameter. -/
def urg3d_tcpclient_buffer_init (URG3D_RB_BITSHIFT : Nat) (cli : Client) : Client :=
  { cli with rb := urg3d_ring_initialize URG3D_RB_BITSHIFT }

/-- Source: `urg3d_tcpclient_buffer_data_num`. -/
def urg3d_tcpclient_buffer_data_num (cli : Client) : Int :=
  urg3d_ring_size cli.rb

/-- Source: `urg3d_tcpclient_buffer_write`. -/
def urg3d_tcpclient_buffer_write (cli : Client) (data : List Nat) (size : Int) : Client × Int :=
  let r := urg3d_ring_write cli.rb data size
  ({ cli with rb := r.1 }, r.2)

/-- Source: `urg3d_tcpclient_buffer_read`. -/
def urg3d_tcpclient_buffer_read (cli : Client) (size : Int) : Client × List Nat × Int :=
  let r := urg3d_ring_read cli.rb size
  ({ cli with rb := r.1 }, r.2.1, r.2.2)

/-- Source: `set_block_mode` (POSIX branch): `fcntl(sock_desc, F_SETFL, 0)`. -/
def set_block_mode (cli : Client) (w : World) : World :=
  sys_fcntl_setfl w cli.sock_desc 0

/-! ## close -/

/-- Source: `urg3d_tcpclient_close`. -/
def urg3d_tcpclient_close (cli : Client) (w : World) : Client × World :=
  if cli.sock_desc ≠ Invalid_desc then
    ({ cli with sock_desc := Invalid_desc }, sys_close w cli.sock_desc)
  else
    (cli, w)

/-! ## read -/

/-- Result of `urg3d_tcpclient_read`: the return value, the bytes stored to
`userbuf[0..]` in index order, and the handle and world after the call. -/
structure ReadResult where
  ret : Int
  out : List Nat
  cli : Client
  world : World
  deriving DecidableEq

/-- Source: `urg3d_tcpclient_read`, lines 233-278: the non-blocking receive
and the blocking receive. `out` are the bytes already stored to `userbuf`
(they end at index `req_size - rem_size`). -/
def urg3d_tcpclient_read_socket (URG3D_BUFSIZE : Nat) (cli : Client) (w : World)
    (req_size timeout : Int) (out : List Nat) (rem_size num_in_buf : Int) : ReadResult :=
  let sock := cli.sock_desc
  -- receive with non-blocking mode
  let r1 := sys_recv w sock ((URG3D_BUFSIZE : Int) - num_in_buf) MSG_DONTWAIT
  let n := r1.1
  let tmpbuf := r1.2.1
  let w := r1.2.2
  let cli := if n > 0 then (urg3d_tcpclient_buffer_write cli tmpbuf n).1 else cli
  let r2 := urg3d_tcpclient_buffer_read cli rem_size
  let cli := r2.1
  let out := out ++ r2.2.1
  let n := r2.2.2
  let rem_size := rem_size - n
  if rem_size ≤ 0 then
    { ret := req_size, out := out, cli := cli, world := w }
  else
    -- lastly recv with blocking but with time out
    let w := sys_setsockopt w sock (Int.tdiv timeout 1000) (Int.tmod timeout 1000 * 1000)
    let r3 := sys_recv w sock rem_size 0
    let n := r3.1
    let w := r3.2.2
    if n > 0 then
      { ret := req_size - (rem_size - n), out := out ++ r3.2.1, cli := cli, world := w }
    else
      { ret := req_size - rem_size, out := out, cli := cli, world := w }

/-- Source: `urg3d_tcpclient_read`. -/
def urg3d_tcpclient_read (URG3D_BUFSIZE : Nat) (cli : Client) (w : World)
    (req_size timeout : Int) : ReadResult :=
  let num_in_buf := urg3d_tcpclient_buffer_data_num cli
  let rem_size := req_size
  if num_in_buf > 0 then
    let r := urg3d_tcpclient_buffer_read cli req_size
    let cli := r.1
    let n := r.2.2
    let rem_size := req_size - n
    if rem_size ≤ 0 then
      { ret := req_size, out := r.2.1, cli := cli, world := w }
    else
      let num_in_buf := urg3d_tcpclient_buffer_data_num cli
      urg3d_tcpclient_read_socket URG3D_BUFSIZE cli w req_size timeout r.2.1 rem_size num_in_buf
  else
    urg3d_tcpclient_read_socket URG3D_BUFSIZE cli w req_size timeout [] rem_size num_in_buf

/-! ## readline -/

/-- The caller's array `userbuf` of `urg3d_tcpclient_readline`: its cells by
index, and the indices stored to during the call, most recent first. -/
structure UserBuf where
  mem : Int → Nat
  written : List Int

/-- The assignment `userbuf[i] = v`. -/
def UserBuf.store (u : UserBuf) (i : Int) (v : Nat) : UserBuf :=
  { mem := fun j => if j = i then v else u.mem j, written := i :: u.written }

/-- The cells `userbuf[0]`, ..., `userbuf[n-1]`. -/
def UserBuf.contents (u : UserBuf) (n : Nat) : List Nat :=
  (List.range n).map (fun (j : Nat) => u.mem (j : Int))

/-- A caller's array of zero bytes that has not been stored to. -/
def UserBuf.fresh : UserBuf := { mem := fun _ => 0, written := [] }

/-- The variables of `urg3d_tcpclient_readline` that its loop changes. -/
structure LineState where
  cli : Client
  world : World
  userbuf : UserBuf
  i : Int
  n : Int

/-- Source: the `for (; i < buf_size; ++i)` loop of `urg3d_tcpclient_readline`.
The first argument bounds the number of iterations; `buf_size - i` is enough. -/
def readline_loop (URG3D_BUFSIZE : Nat) (buf_size timeout : Int) : Nat → LineState → LineState
  | 0, s => s
  | fuel + 1, s =>
    if s.i < buf_size then
      let r := urg3d_tcpclient_read URG3D_BUFSIZE s.cli s.world 1 timeout
      let ch := r.out.headD 0
      if r.ret ≤ 0 then
        { s with cli := r.cli, world := r.world, n := r.ret } -- error
      else if ch = 10 ∨ ch = 13 then
        { s with cli := r.cli, world := r.world, n := r.ret } -- success
      else
        readline_loop URG3D_BUFSIZE buf_size timeout fuel
          { cli := r.cli, world := r.world, userbuf := s.userbuf.store s.i ch,
            i := s.i + 1, n := r.ret }
    else s

/-- Result of `urg3d_tcpclient_readline`: the return value, the final value
of the local index `i`, the caller's array, and the handle and world after
the call. -/
structure LineResult where
  ret : Int
  i : Int
  userbuf : UserBuf
  cli : Client
  world : World

/-- Source: `urg3d_tcpclient_readline`, lines 310-317: the initial values of
`n` and `i` and the pending pushed back byte. -/
def readline_start (cli : Client) (w : World) (userbuf : UserBuf) : LineState :=
  if cli.pushed_back > 0 then
    { cli := { cli with pushed_back := -1 }, world := w,
      userbuf := userbuf.store 0 (cli.pushed_back % 256).toNat, i := 1, n := 0 }
  else
    { cli := cli, world := w, userbuf := userbuf, i := 0, n := 0 }

/-- Source: `urg3d_tcpclient_readline`, lines 330-341: the full buffer, the
terminating NUL and the return value. -/
def readline_finish (buf_size : Int) (s1 : LineState) : LineResult :=
  let s2 : LineState :=
    if s1.i ≥ buf_size then -- No CR or LF found.
      { s1 with
        i := s1.i - 1,
        cli := { s1.cli with pushed_back := ((s1.userbuf.mem (buf_size - 1) % 256 : Nat) : Int) },
        userbuf := s1.userbuf.store (buf_size - 1) 0 }
    else s1
  let ub := s2.userbuf.store s2.i 0
  if s2.i = 0 ∧ s2.n ≤ 0 then -- error
    { ret := -1, i := s2.i, userbuf := ub, cli := s2.cli, world := s2.world }
  else
    { ret := s2.i, i := s2.i, userbuf := ub, cli := s2.cli, world := s2.world }

/-- Source: `urg3d_tcpclient_readline`. -/
def urg3d_tcpclient_readline (URG3D_BUFSIZE : Nat) (cli : Client) (w : World)
    (userbuf : UserBuf) (buf_size timeout : Int) : LineResult :=
  let s0 := readline_start cli w userbuf
  let s1 := readline_loop URG3D_BUFSIZE buf_size timeout (buf_size - s0.i).toNat s0
  readline_finish buf_size s1

/-! ## open -/

/-- The answers of the operating system and of the C library to the calls made
by one `urg3d_tcpclient_open`. -/
structure OpenEnv where
  socket_ret : Int
  inet_addr : String → Nat
  connect_ret : Int
  errno : Int
  select_ret : Int
  getsockopt_ret : Int
  sock_optval : Int

/-- System call `socket(AF_INET, SOCK_STREAM, 0)`: a descriptor that is
created is open and in blocking mode (status flags `O_RDWR`). -/
def sys_socket (env : OpenEnv) (w : World) : Int × World :=
  if env.socket_ret < 0 then
    (env.socket_ret, { w with trace := w.trace ++ [SysCall.socket env.socket_ret] })
  else
    (env.socket_ret,
      { w with fl := 2, open_fds := env.socket_ret :: w.open_fds,
               trace := w.trace ++ [SysCall.socket env.socket_ret] })

/-- System call `connect`. -/
def sys_connect (env : OpenEnv) (w : World) (fd : Int) : Int × World :=
  (env.connect_ret, { w with trace := w.trace ++ [SysCall.connect fd env.connect_ret] })

/-- System call `select(nfds, &rmask, &wmask, NULL, &tv)`. -/
def sys_select (env : OpenEnv) (w : World) (nfds : Int) : Int × World :=
  (env.select_ret, { w with trace := w.trace ++ [SysCall.select nfds env.select_ret] })

/-- System call `getsockopt(fd, SOL_SOCKET, SO_ERROR, &sock_optval, ..)`. -/
def sys_getsockopt (env : OpenEnv) (w : World) (fd : Int) : Int × Int × World :=
  (env.getsockopt_ret, env.sock_optval,
    { w with trace := w.trace ++ [SysCall.getsockopt fd env.getsockopt_ret env.sock_optval] })

/-- Library function `htons` on a little-endian host. -/
def htons (p : Int) : Int := (p % 256) * 256 + (p / 256) % 256

/-- Result of `urg3d_tcpclient_open`. -/
structure OpenResult where
  ret : Int
  cli : Client
  world : World
  deriving DecidableEq

/-- Source: `urg3d_tcpclient_open`, POSIX branch. The `memset` of line 112
clears the first bytes of `server_addr`, which lines 113-114 assign. -/
def urg3d_tcpclient_open (URG3D_RB_BITSHIFT : Nat) (env : OpenEnv) (cli : Client) (w : World)
    (ip_str : String) (port_num : Int) : OpenResult :=
  let cli := { cli with sock_desc := Invalid_desc, pushed_back := -1 }
  let cli := urg3d_tcpclient_buffer_init URG3D_RB_BITSHIFT cli
  let cli := { cli with sock_addr_size := 16 }
  let r := sys_socket env w
  let cli := { cli with sock_desc := r.1 }
  let w := r.2
  if cli.sock_desc < 0 then
    { ret := -1, cli := cli, world := w }
  else
    let cli := { cli with sin_family := AF_INET, sin_port := htons port_num }
    let ip_str := if ip_str = "localhost" then "127.0.0.1" else ip_str
    let cli := { cli with s_addr := env.inet_addr ip_str }
    if cli.s_addr = INADDR_NONE then
      { ret := -1, cli := cli, world := w }
    else
      -- non-blocking
      let g := sys_fcntl_getfl w cli.sock_desc
      let flag := g.1
      let w := sys_fcntl_setfl g.2 cli.sock_desc (flag ||| O_NONBLOCK)
      let c := sys_connect env w cli.sock_desc
      let w := c.2
      if c.1 < 0 then
        if env.errno ≠ EINPROGRESS then
          let k := urg3d_tcpclient_close cli w
          { ret := -1, cli := k.1, world := k.2 }
        else
          let sel := sys_select env w (cli.sock_desc + 1)
          let w := sel.2
          if sel.1 ≤ 0 then
            -- timeout
            let k := urg3d_tcpclient_close cli w
            { ret := -2, cli := k.1, world := k.2 }
          else
            let o := sys_getsockopt env w cli.sock_desc
            let w := o.2.2
            if o.1 ≠ 0 then
              -- connection failed
              let k := urg3d_tcpclient_close cli w
              { ret := -3, cli := k.1, world := k.2 }
            else if o.2.1 ≠ 0 then
              -- connection failed
              let k := urg3d_tcpclient_close cli w
              { ret := -4, cli := k.1, world := k.2 }
            else
              { ret := 0, cli := cli, world := set_block_mode cli w }
      else
        { ret := 0, cli := cli, world := w }

/-! ## Failure kinds of open -/

/-- The ways in which the environment can make `urg3d_tcpclient_open` fail. -/
inductive FailKind where
  | socket_create
  | address_parse
  | connect_fail
  | ready_wait
  | getsockopt_fail
  | pending_error
  deriving DecidableEq

/-- Which failure, if any, the answers of the environment amount to for the
address `ip_str`: the first call that fails, in program order. -/
def failure_kind (env : OpenEnv) (ip_str : String) : Option FailKind :=
  if env.socket_ret < 0 then some FailKind.socket_create
  else if env.inet_addr (if ip_str = "localhost" then "127.0.0.1" else ip_str) = INADDR_NONE then
    some FailKind.address_parse
  else if 0 ≤ env.connect_ret then none
  else if env.errno ≠ EINPROGRESS then some FailKind.connect_fail
  else if env.select_ret ≤ 0 then some FailKind.ready_wait
  else if env.getsockopt_ret ≠ 0 then some FailKind.getsockopt_fail
  else if env.sock_optval ≠ 0 then some FailKind.pending_error
  else none

/-! ## Concrete inputs -/

/-- A handle that has not been opened, with an empty ring buffer of 255 bytes. -/
def cliUnopened : Client :=
  { sock_desc := Invalid_desc, pushed_back := -1, rb := { data := [], capacity := 255 },
    sock_addr_size := 0, sin_family := 0, sin_port := 0, s_addr := 0 }

/-- A handle connected on descriptor 3, with an empty ring buffer of 255 bytes. -/
def cliOpen : Client := { cliUnopened with sock_desc := 3 }

/-- A world without sockets. -/
def worldIdle : World := { incoming := [], fl := 0, open_fds := [], trace := [] }

/-- A world in which descriptor 3 is open and the bytes `bs` are queued at it. -/
def worldWith (bs : List Nat) : World :=
  { incoming := [RecvEvent.data bs], fl := 2, open_fds := [3], trace := [] }

/-- An `inet_addr` that knows two dotted quads. -/
def inetAddrSample (s : String) : Nat :=
  if s = "127.0.0.1" then 16777343
  else if s = "192.168.0.10" then 167815360
  else INADDR_NONE

/-- Environment: every call succeeds and `connect` completes at once. -/
def envConnectNow : OpenEnv :=
  { socket_ret := 3, inet_addr := inetAddrSample, connect_ret := 0, errno := 0,
    select_ret := 0, getsockopt_ret := 0, sock_optval := 0 }

/-- Environment: `connect` is in progress and then completes. -/
def envConnectLater : OpenEnv :=
  { envConnectNow with connect_ret := -1, errno := EINPROGRESS, select_ret := 1 }

/-- Environment: `socket` fails. -/
def envNoSocket : OpenEnv := { envConnectNow with socket_ret := -1, errno := 24 }

/-- Environment: `connect` fails with `ECONNREFUSED`. -/
def envRefused : OpenEnv := { envConnectNow with connect_ret := -1, errno := 111 }

/-! ## Streams delivered by one-byte reads -/

/-- The handle and world after `m` successive one-byte calls of
`urg3d_tcpclient_read`. -/
def afterReads (URG3D_BUFSIZE : Nat) (timeout : Int) : Nat → Client × World → Client × World
  | 0, s => s
  | m + 1, s =>
    afterReads URG3D_BUFSIZE timeout m
      ((urg3d_tcpclient_read URG3D_BUFSIZE s.1 s.2 1 timeout).cli,
       (urg3d_tcpclient_read URG3D_BUFSIZE s.1 s.2 1 timeout).world)

/-- Successive one-byte calls of `urg3d_tcpclient_read` deliver the bytes `bs`
in order: each call returns 1 and stores the next byte. -/
def Delivers (URG3D_BUFSIZE : Nat) (timeout : Int) : Client → World → List Nat → Prop
  | _, _, [] => True
  | cli, w, b :: bs =>
    (urg3d_tcpclient_read URG3D_BUFSIZE cli w 1 timeout).ret = 1
      ∧ (urg3d_tcpclient_read URG3D_BUFSIZE cli w 1 timeout).out = [b]
      ∧ Delivers URG3D_BUFSIZE timeout (urg3d_tcpclient_read URG3D_BUFSIZE cli w 1 timeout).cli
          (urg3d_tcpclient_read URG3D_BUFSIZE cli w 1 timeout).world bs

end Urg3d

/-! ## Theorems -/

namespace Urg3d

/-! ### close -/

/-- C8: `urg3d_tcpclient_close` is idempotent. Closing the handle that a close
returned gives back the same handle and world (no further system call);
after a close the descriptor is `Invalid_desc`; and closing a handle whose
descriptor is already `Invalid_desc` returns handle and world unchanged, so
no `close` system call is made. -/
theorem urg3d_tcpclient_close_idempotent (cli : Client) (w : World) :
    urg3d_tcpclient_close (urg3d_tcpclient_close cli w).1 (urg3d_tcpclient_close cli w).2
        = urg3d_tcpclient_close cli w
      ∧ (urg3d_tcpclient_close cli w).1.sock_desc = Invalid_desc
      ∧ urg3d_tcpclient_close { cli with sock_desc := Invalid_desc } w
        = ({ cli with sock_desc := Invalid_desc }, w) := by
  by_cases h : cli.sock_desc = Invalid_desc
  · simp [urg3d_tcpclient_close, h]
  · simp [urg3d_tcpclient_close, h]

/-! ### open -/

/-- C2: on an address that `inet_addr` rejects, `urg3d_tcpclient_open`
returns -1 while the descriptor 3 that `socket` created is still stored in
the handle and still open, and no `close` call was made. -/
theorem open_address_failure_leaves_socket_open :
    (urg3d_tcpclient_open 8 envConnectNow cliUnopened worldIdle "not-an-address" 10940).ret = -1
      ∧ (urg3d_tcpclient_open 8 envConnectNow cliUnopened worldIdle "not-an-address" 10940).cli.sock_desc = 3
      ∧ (urg3d_tcpclient_open 8 envConnectNow cliUnopened worldIdle "not-an-address" 10940).cli.sock_desc
          ≠ Invalid_desc
      ∧ (urg3d_tcpclient_open 8 envConnectNow cliUnopened worldIdle "not-an-address" 10940).world.open_fds = [3]
      ∧ (urg3d_tcpclient_open 8 envConnectNow cliUnopened worldIdle "not-an-address" 10940).world.trace
          = [SysCall.socket 3] := by
  decide

/-- C3: when `connect` completes at once, `urg3d_tcpclient_open` returns 0
and the status flags of the socket still contain `O_NONBLOCK`: the last
`fcntl` call of the trace is the one that set it. -/
theorem open_sync_connect_stays_nonblocking :
    (urg3d_tcpclient_open 8 envConnectNow cliUnopened worldIdle "192.168.0.10" 10940).ret = 0
      ∧ (urg3d_tcpclient_open 8 envConnectNow cliUnopened worldIdle "192.168.0.10" 10940).world.fl
          &&& O_NONBLOCK = O_NONBLOCK
      ∧ (urg3d_tcpclient_open 8 envConnectNow cliUnopened worldIdle "192.168.0.10" 10940).world.trace
          = [SysCall.socket 3, SysCall.fcntl_getfl 3 2, SysCall.fcntl_setfl 3 2050,
             SysCall.connect 3 0] := by
  decide

/-- C6 (as stated, refuted): a failed `socket`, a rejected address and a
refused `connect` are three different failure kinds, and
`urg3d_tcpclient_open` returns the same code -1 for all three. -/
theorem open_failure_codes_collide :
    failure_kind envNoSocket "192.168.0.10" = some FailKind.socket_create
      ∧ failure_kind envConnectNow "not-an-address" = some FailKind.address_parse
      ∧ failure_kind envRefused "192.168.0.10" = some FailKind.connect_fail
      ∧ (urg3d_tcpclient_open 8 envNoSocket cliUnopened worldIdle "192.168.0.10" 10940).ret = -1
      ∧ (urg3d_tcpclient_open 8 envConnectNow cliUnopened worldIdle "not-an-address" 10940).ret = -1
      ∧ (urg3d_tcpclient_open 8 envRefused cliUnopened worldIdle "192.168.0.10" 10940).ret = -1 := by
  decide

/-- C6 (amended): the return code of `urg3d_tcpclient_open` as a function of
the failure kind. Success is 0; a failed `socket`, a rejected address and a
`connect` failure other than in-progress all give -1; no readiness within the
wait gives -2; a failed `getsockopt` gives -3; a pending socket error gives -4. -/
theorem open_return_code (shift : Nat) (env : OpenEnv) (cli : Client) (w : World)
    (ip_str : String) (port_num : Int) :
    (urg3d_tcpclient_open shift env cli w ip_str port_num).ret =
      match failure_kind env ip_str with
      | none => 0
      | some FailKind.socket_create => -1
      | some FailKind.address_parse => -1
      | some FailKind.connect_fail => -1
      | some FailKind.ready_wait => -2
      | some FailKind.getsockopt_fail => -3
      | some FailKind.pending_error => -4 := by
  unfold urg3d_tcpclient_open failure_kind
  simp only [sys_socket, sys_connect, sys_select, sys_getsockopt, sys_fcntl_getfl]
  by_cases h1 : env.socket_ret < 0
  · simp [h1]
  · by_cases h2 : env.inet_addr (if ip_str = "localhost" then "127.0.0.1" else ip_str) = INADDR_NONE
    · simp [h1, h2]
    · by_cases h3 : env.connect_ret < 0
      · have h3n : ¬ (0 ≤ env.connect_ret) := by omega
        by_cases h4 : env.errno = EINPROGRESS
        · by_cases h5 : env.select_ret ≤ 0
          · simp [h1, h2, h3, h3n, h4, h5]
          · by_cases h6 : env.getsockopt_ret = 0
            · by_cases h7 : env.sock_optval = 0
              · simp [h1, h2, h3, h3n, h4, h5, h6, h7]
              · simp [h1, h2, h3, h3n, h4, h5, h6, h7]
            · simp [h1, h2, h3, h3n, h4, h5, h6]
        · simp [h1, h2, h3, h3n, h4]
      · have h3n : 0 ≤ env.connect_ret := by omega
        simp [h1, h2, h3, h3n]

/-- Failure returns of `urg3d_tcpclient_open` other than the rejected address:
when `socket` answers -1 on failure, the handle holds `Invalid_desc` on return,
and a descriptor that was created has been closed. -/
theorem open_failure_closes_socket_unless_address (shift : Nat) (env : OpenEnv) (cli : Client)
    (w : World) (ip_str : String) (port_num : Int)
    (hsock : env.socket_ret < 0 → env.socket_ret = -1)
    (hfail : (urg3d_tcpclient_open shift env cli w ip_str port_num).ret ≠ 0)
    (hkind : failure_kind env ip_str ≠ some FailKind.address_parse) :
    (urg3d_tcpclient_open shift env cli w ip_str port_num).cli.sock_desc = Invalid_desc
      ∧ (0 ≤ env.socket_ret →
          env.socket_ret ∉ (urg3d_tcpclient_open shift env cli w ip_str port_num).world.open_fds
            ∧ SysCall.close env.socket_ret
              ∈ (urg3d_tcpclient_open shift env cli w ip_str port_num).world.trace) := by
  revert hfail hkind
  unfold urg3d_tcpclient_open failure_kind
  simp only [sys_socket, sys_connect, sys_select, sys_getsockopt, sys_fcntl_getfl, sys_fcntl_setfl,
    urg3d_tcpclient_close, sys_close, set_block_mode, Invalid_desc]
  by_cases h1 : env.socket_ret < 0
  · have := hsock h1
    simp [h1, this]
  · have hne : ¬ env.socket_ret = -1 := by omega
    have hge : 0 ≤ env.socket_ret := by omega
    by_cases h2 : env.inet_addr (if ip_str = "localhost" then "127.0.0.1" else ip_str) = INADDR_NONE
    · simp [h1, h2]
    · by_cases h3 : env.connect_ret < 0
      · have h3n : ¬ (0 ≤ env.connect_ret) := by omega
        by_cases h4 : env.errno = EINPROGRESS
        · by_cases h5 : env.select_ret ≤ 0
          · simp [h1, h2, h3, h3n, h4, h5, hne, hge]
          · by_cases h6 : env.getsockopt_ret = 0
            · by_cases h7 : env.sock_optval = 0
              · simp [h1, h2, h3, h3n, h4, h5, h6, h7]
              · simp [h1, h2, h3, h3n, h4, h5, h6, h7, hne, hge]
            · simp [h1, h2, h3, h3n, h4, h5, h6, hne, hge]
        · simp [h1, h2, h3, h3n, h4, hne, hge]
      · have h3n : 0 ≤ env.connect_ret := by omega
        simp [h1, h2, h3, h3n]

/-- Success returns of `urg3d_tcpclient_open`: after the in-progress wait the
status flags are 0 (blocking mode); after a `connect` that completed at once
they are the flags of the fresh socket with `O_NONBLOCK` set. -/
theorem open_success_block_mode (shift : Nat) (env : OpenEnv) (cli : Client)
    (w : World) (ip_str : String) (port_num : Int)
    (hok : (urg3d_tcpclient_open shift env cli w ip_str port_num).ret = 0) :
    (env.connect_ret < 0 →
        (urg3d_tcpclient_open shift env cli w ip_str port_num).world.fl = 0)
      ∧ (0 ≤ env.connect_ret →
        (urg3d_tcpclient_open shift env cli w ip_str port_num).world.fl = 2 ||| O_NONBLOCK) := by
  revert hok
  unfold urg3d_tcpclient_open
  simp only [sys_socket, sys_connect, sys_select, sys_getsockopt, sys_fcntl_getfl, sys_fcntl_setfl,
    urg3d_tcpclient_close, sys_close, set_block_mode, Invalid_desc]
  by_cases h1 : env.socket_ret < 0
  · simp [h1]
  · by_cases h2 : env.inet_addr (if ip_str = "localhost" then "127.0.0.1" else ip_str) = INADDR_NONE
    · simp [h1, h2]
    · by_cases h3 : env.connect_ret < 0
      · have h3n : ¬ (0 ≤ env.connect_ret) := by omega
        by_cases h4 : env.errno = EINPROGRESS
        · by_cases h5 : env.select_ret ≤ 0
          · simp [h1, h2, h3, h3n, h4, h5]
          · by_cases h6 : env.getsockopt_ret = 0
            · by_cases h7 : env.sock_optval = 0
              · simp [h1, h2, h3, h3n, h4, h5, h6, h7]
              · simp [h1, h2, h3, h3n, h4, h5, h6, h7]
            · simp [h1, h2, h3, h3n, h4, h5, h6]
        · simp [h1, h2, h3, h3n, h4]
      · have h3n : 0 ≤ env.connect_ret := by omega
        simp [h1, h2, h3, h3n]

/-! ### read -/

/-- What `sys_recv` returns: the call is appended to the trace, a non-positive
result stores no bytes, a positive result is the number of bytes stored, and
no more than `len` bytes are stored. -/
theorem sys_recv_spec (w : World) (sock len flags : Int) :
    ∃ (n : Int) (bytes : List Nat) (w1 : World),
      sys_recv w sock len flags = (n, bytes, w1)
        ∧ w1.trace = w.trace ++ [SysCall.recv sock len flags n bytes]
        ∧ (n ≤ 0 → bytes = [])
        ∧ (0 < n → (bytes.length : Int) = n)
        ∧ bytes.length ≤ len.toNat := by
  unfold sys_recv
  cases hi : w.incoming with
  | nil => exact ⟨_, _, _, rfl, rfl, by simp, by simp, by simp⟩
  | cons e rest =>
    cases e with
    | fail c => exact ⟨_, _, _, rfl, rfl, by simp, by intro h; omega, by simp⟩
    | data bs =>
      refine ⟨_, _, _, rfl, rfl, ?_, by simp, by simp⟩
      intro h
      have : (List.take len.toNat bs).length = 0 := by omega
      exact List.length_eq_zero.mp this

/-- The two receives of `urg3d_tcpclient_read`, entered with an empty ring
buffer: the bytes stored to `userbuf` followed by the ring contents are the
bytes stored before followed by the bytes received. -/
theorem read_socket_spec (B : Nat) (cli : Client) (w : World) (req_size timeout : Int)
    (out : List Nat) (rem_size : Int) (r : ReadResult)
    (hr : urg3d_tcpclient_read_socket B cli w req_size timeout out rem_size 0 = r)
    (hcap : B ≤ cli.rb.capacity) (hempty : cli.rb.data = [])
    (hrem : 0 ≤ rem_size) (hout : (out.length : Int) = req_size - rem_size) :
    r.ret ≤ req_size ∧ (r.out.length : Int) = r.ret
      ∧ ∃ calls : List SysCall,
          r.world.trace = w.trace ++ calls
            ∧ r.out ++ r.cli.rb.data = out ++ recvBytes calls
            ∧ ∀ fd len ret bytes, SysCall.recv fd len MSG_DONTWAIT ret bytes ∈ calls → len = (B : Int) := by
  obtain ⟨n1, tmp, w1, h1, ht1, hz1, hp1, hl1⟩ := sys_recv_spec w cli.sock_desc ((B : Int) - 0) MSG_DONTWAIT
  have hw : (if n1 > 0 then (urg3d_tcpclient_buffer_write cli tmp n1).1 else cli).rb.data = tmp := by
    split
    · rename_i hpos
      have := hp1 hpos
      simp only [urg3d_tcpclient_buffer_write, urg3d_ring_write, hempty, List.nil_append,
        List.length_nil, Nat.sub_zero, List.take_eq_self_iff]
      omega
    · rename_i hneg
      rw [hz1 (by omega), hempty]
  unfold urg3d_tcpclient_read_socket at hr
  simp only [h1] at hr
  generalize (if n1 > 0 then (urg3d_tcpclient_buffer_write cli tmp n1).1 else cli) = cli1 at hw hr
  simp only [urg3d_tcpclient_buffer_read, urg3d_ring_read, hw] at hr
  have hlen : ((List.take rem_size.toNat tmp).length : Int) ≤ rem_size := by
    simp only [List.length_take]; omega
  generalize hrem2 : rem_size - ((List.take rem_size.toNat tmp).length : Int) = rem2 at hr
  obtain ⟨n3, b3, w3, h3, ht3, hz3, hp3, hl3⟩ :=
    sys_recv_spec (sys_setsockopt w1 cli.sock_desc (timeout.tdiv 1000) (timeout.tmod 1000 * 1000))
      cli.sock_desc rem2 0
  simp only [h3] at hr
  have hrb : recvBytes [SysCall.recv cli.sock_desc ((B : Int) - 0) MSG_DONTWAIT n1 tmp] = tmp := by
    simp [recvBytes]
  split at hr
  · subst hr
    refine ⟨le_refl _, ?_, [SysCall.recv cli.sock_desc ((B : Int) - 0) MSG_DONTWAIT n1 tmp], ht1, ?_, ?_⟩
    · simp only [List.length_append, Nat.cast_add]; omega
    · simp [recvBytes]
    · intro fd len ret bytes hm
      simp at hm
      omega
  · rename_i hpos
    have htake : List.take rem_size.toNat tmp = tmp := by
      rw [List.take_eq_self_iff]
      simp only [List.length_take] at hrem2
      omega
    have hdrop : List.drop rem_size.toNat tmp = [] := by
      rw [List.drop_eq_nil_iff]
      simp only [List.length_take] at hrem2
      omega
    have htr : w3.trace = w.trace ++ [SysCall.recv cli.sock_desc ((B : Int) - 0) MSG_DONTWAIT n1 tmp,
        SysCall.setsockopt cli.sock_desc (timeout.tdiv 1000) (timeout.tmod 1000 * 1000),
        SysCall.recv cli.sock_desc rem2 0 n3 b3] := by
      rw [ht3]; simp [sys_setsockopt, ht1]
    have hmem : ∀ fd len ret bytes, SysCall.recv fd len MSG_DONTWAIT ret bytes ∈
        [SysCall.recv cli.sock_desc ((B : Int) - 0) MSG_DONTWAIT n1 tmp,
        SysCall.setsockopt cli.sock_desc (timeout.tdiv 1000) (timeout.tmod 1000 * 1000),
        SysCall.recv cli.sock_desc rem2 0 n3 b3] → len = (B : Int) := by
      intro fd len ret bytes hm
      simp [MSG_DONTWAIT] at hm
      omega
    have hl3b : (b3.length : Int) ≤ rem2 := by omega
    split at hr
    · rename_i hn3
      subst hr
      have := hp3 hn3
      refine ⟨?_, ?_, _, htr, ?_, hmem⟩
      · simp only; omega
      · simp only [List.length_append, Nat.cast_add]; omega
      · simp [recvBytes, htake, hdrop]
    · rename_i hn3
      subst hr
      have := hz3 (by omega)
      refine ⟨?_, ?_, _, htr, ?_, hmem⟩
      · simp only; omega
      · simp only [List.length_append, Nat.cast_add]; omega
      · simp [recvBytes, htake, hdrop, this]

/-- C10: byte conservation in `urg3d_tcpclient_read`. For `req_size >= 0` and a
ring buffer that can hold `URG3D_BUFSIZE` bytes, the return value is between 0
and `req_size` and is the number of bytes stored to `userbuf`; the bytes
stored followed by the ring contents after the call are the ring contents
before the call followed by the bytes that the `recv` calls of this call
delivered (a `recv` with a non-positive result delivers none); and every
non-blocking `recv` asks for `URG3D_BUFSIZE - num_in_buf = URG3D_BUFSIZE`
bytes, that is, it is issued with an empty ring buffer. -/
theorem read_byte_conservation (B : Nat) (cli : Client) (w : World) (req_size timeout : Int)
    (hreq : 0 ≤ req_size) (hcap : B ≤ cli.rb.capacity) :
    0 ≤ (urg3d_tcpclient_read B cli w req_size timeout).ret
      ∧ (urg3d_tcpclient_read B cli w req_size timeout).ret ≤ req_size
      ∧ ((urg3d_tcpclient_read B cli w req_size timeout).out.length : Int)
          = (urg3d_tcpclient_read B cli w req_size timeout).ret
      ∧ ∃ calls : List SysCall,
          (urg3d_tcpclient_read B cli w req_size timeout).world.trace = w.trace ++ calls
            ∧ (urg3d_tcpclient_read B cli w req_size timeout).out
                ++ (urg3d_tcpclient_read B cli w req_size timeout).cli.rb.data
              = cli.rb.data ++ recvBytes calls
            ∧ ∀ fd len ret bytes,
                SysCall.recv fd len MSG_DONTWAIT ret bytes ∈ calls → len = (B : Int) := by
  generalize hr : urg3d_tcpclient_read B cli w req_size timeout = r
  suffices h : r.ret ≤ req_size ∧ (r.out.length : Int) = r.ret
      ∧ ∃ calls : List SysCall,
          r.world.trace = w.trace ++ calls
            ∧ r.out ++ r.cli.rb.data = cli.rb.data ++ recvBytes calls
            ∧ ∀ fd len ret bytes, SysCall.recv fd len MSG_DONTWAIT ret bytes ∈ calls → len = (B : Int) by
    exact ⟨by omega, h.1, h.2.1, h.2.2⟩
  unfold urg3d_tcpclient_read at hr
  simp only [urg3d_tcpclient_buffer_data_num, urg3d_ring_size, urg3d_tcpclient_buffer_read,
    urg3d_ring_read] at hr
  split at hr
  · split at hr
    · rename_i hle
      subst hr
      have hlen : ((List.take req_size.toNat cli.rb.data).length : Int) ≤ req_size := by
        simp only [List.length_take]; omega
      refine ⟨le_refl _, ?_, [], by simp, by simp [recvBytes], by simp⟩
      simp only; omega
    · rename_i hgt
      have hlt : cli.rb.data.length < req_size.toNat := by
        simp only [List.length_take] at hgt
        omega
      have htake : List.take req_size.toNat cli.rb.data = cli.rb.data := by
        rw [List.take_eq_self_iff]; omega
      have hdrop : List.drop req_size.toNat cli.rb.data = [] := by
        rw [List.drop_eq_nil_iff]; omega
      simp only [htake, hdrop, List.length_nil, Nat.cast_zero] at hr
      exact read_socket_spec B _ w req_size timeout cli.rb.data _ r hr hcap rfl (by omega) (by omega)
  · rename_i hz
    have hnil : cli.rb.data = [] := by
      apply List.length_eq_zero.mp
      omega
    simp only [hnil, List.length_nil, Nat.cast_zero] at hr
    have := read_socket_spec B cli w req_size timeout [] req_size r hr hcap hnil hreq (by simp)
    simpa [hnil] using this

/-- C10, at a handle holding two bytes, four bytes queued at the socket and a
request for five bytes. -/
theorem read_byte_conservation_witness :
    (0 : Int) ≤ 5 ∧ 255 ≤ ({ cliOpen with rb := { data := [1, 2], capacity := 255 } } : Client).rb.capacity
      ∧ (urg3d_tcpclient_read 255 { cliOpen with rb := { data := [1, 2], capacity := 255 } }
          (worldWith [3, 4, 5, 6]) 5 1500).ret = 5
      ∧ (urg3d_tcpclient_read 255 { cliOpen with rb := { data := [1, 2], capacity := 255 } }
          (worldWith [3, 4, 5, 6]) 5 1500).out = [1, 2, 3, 4, 5]
      ∧ (urg3d_tcpclient_read 255 { cliOpen with rb := { data := [1, 2], capacity := 255 } }
          (worldWith [3, 4, 5, 6]) 5 1500).cli.rb.data = [6]
      ∧ ∃ calls : List SysCall,
          (urg3d_tcpclient_read 255 { cliOpen with rb := { data := [1, 2], capacity := 255 } }
              (worldWith [3, 4, 5, 6]) 5 1500).world.trace = (worldWith [3, 4, 5, 6]).trace ++ calls
            ∧ (urg3d_tcpclient_read 255 { cliOpen with rb := { data := [1, 2], capacity := 255 } }
                (worldWith [3, 4, 5, 6]) 5 1500).out
                ++ (urg3d_tcpclient_read 255 { cliOpen with rb := { data := [1, 2], capacity := 255 } }
                  (worldWith [3, 4, 5, 6]) 5 1500).cli.rb.data
              = ({ cliOpen with rb := { data := [1, 2], capacity := 255 } } : Client).rb.data
                  ++ recvBytes calls
            ∧ ∀ fd len ret bytes,
                SysCall.recv fd len MSG_DONTWAIT ret bytes ∈ calls → len = ((255 : Nat) : Int) :=
  ⟨by decide, by decide, by decide, by decide, by decide,
    (read_byte_conservation 255 { cliOpen with rb := { data := [1, 2], capacity := 255 } }
      (worldWith [3, 4, 5, 6]) 5 1500 (by decide) (by decide)).2.2.2⟩

/-- C5 (as stated, refuted): with an empty ring buffer and `req_size = 0` the
ring buffer holds at least `req_size` bytes, and `urg3d_tcpclient_read`
returns 0 after a non-blocking `recv` on the socket. -/
theorem read_zero_from_empty_ring_calls_recv :
    (0 : Int) ≤ cliOpen.rb.data.length
      ∧ (urg3d_tcpclient_read 255 cliOpen (worldWith [97, 98, 99, 10]) 0 1000).ret = 0
      ∧ (urg3d_tcpclient_read 255 cliOpen (worldWith [97, 98, 99, 10]) 0 1000).out = []
      ∧ (urg3d_tcpclient_read 255 cliOpen (worldWith [97, 98, 99, 10]) 0 1000).world.trace
          = [SysCall.recv 3 255 MSG_DONTWAIT 4 [97, 98, 99, 10]]
      ∧ ((urg3d_tcpclient_read 255 cliOpen (worldWith [97, 98, 99, 10]) 0 1000).world.trace.any
          isSocketOp) = true := by
  decide

/-- C5 (amended): for `req_size >= 0` and a ring buffer that is not empty and
holds at least `req_size` bytes, `urg3d_tcpclient_read` returns `req_size`,
stores the first `req_size` buffered bytes, leaves the rest in the ring buffer,
and returns the world unchanged: no system call is made. -/
theorem read_served_from_ring (B : Nat) (cli : Client) (w : World) (req_size timeout : Int)
    (hreq : 0 ≤ req_size) (hne : cli.rb.data ≠ [])
    (hhold : req_size ≤ (cli.rb.data.length : Int)) :
    (urg3d_tcpclient_read B cli w req_size timeout).ret = req_size
      ∧ (urg3d_tcpclient_read B cli w req_size timeout).out = cli.rb.data.take req_size.toNat
      ∧ ((urg3d_tcpclient_read B cli w req_size timeout).out.length : Int) = req_size
      ∧ (urg3d_tcpclient_read B cli w req_size timeout).cli.rb.data
          = cli.rb.data.drop req_size.toNat
      ∧ (urg3d_tcpclient_read B cli w req_size timeout).world = w := by
  have hpos : (0 : Int) < (cli.rb.data.length : Int) := by
    have := List.length_pos.mpr hne
    omega
  have hlen : ((List.take req_size.toNat cli.rb.data).length : Int) = req_size := by
    simp only [List.length_take]; omega
  unfold urg3d_tcpclient_read
  simp only [urg3d_tcpclient_buffer_data_num, urg3d_ring_size, urg3d_tcpclient_buffer_read,
    urg3d_ring_read, gt_iff_lt, hpos, if_true, hlen, sub_self, le_refl, and_self]

/-- C5 (amended), at a handle holding four bytes and a request for three. -/
theorem read_served_from_ring_witness :
    (0 : Int) ≤ 3
      ∧ ({ cliOpen with rb := { data := [7, 8, 9, 10], capacity := 255 } } : Client).rb.data ≠ []
      ∧ (3 : Int) ≤ (({ cliOpen with rb := { data := [7, 8, 9, 10], capacity := 255 } } : Client).rb.data.length : Int)
      ∧ (urg3d_tcpclient_read 255 { cliOpen with rb := { data := [7, 8, 9, 10], capacity := 255 } }
          (worldWith [11]) 3 1000).ret = 3
      ∧ (urg3d_tcpclient_read 255 { cliOpen with rb := { data := [7, 8, 9, 10], capacity := 255 } }
          (worldWith [11]) 3 1000).out = [7, 8, 9]
      ∧ (urg3d_tcpclient_read 255 { cliOpen with rb := { data := [7, 8, 9, 10], capacity := 255 } }
          (worldWith [11]) 3 1000).world = worldWith [11] :=
  ⟨by decide, by decide, by decide,
    (read_served_from_ring 255 { cliOpen with rb := { data := [7, 8, 9, 10], capacity := 255 } }
      (worldWith [11]) 3 1000 (by decide) (by decide) (by decide)).1,
    by decide,
    (read_served_from_ring 255 { cliOpen with rb := { data := [7, 8, 9, 10], capacity := 255 } }
      (worldWith [11]) 3 1000 (by decide) (by decide) (by decide)).2.2.2.2⟩

/-! ### readline -/

/-- The loop of `urg3d_tcpclient_readline` stores only to indices from the
entry value of `i` up to `buf_size - 1`, never decreases `i`, and never moves
`i` past `buf_size`. -/
theorem readline_loop_bounds (B : Nat) (buf_size timeout : Int) (fuel : Nat) :
    ∀ s : LineState,
      (∃ new : List Int,
          (readline_loop B buf_size timeout fuel s).userbuf.written = new ++ s.userbuf.written
            ∧ ∀ j ∈ new, s.i ≤ j ∧ j < buf_size)
        ∧ s.i ≤ (readline_loop B buf_size timeout fuel s).i
        ∧ (s.i ≤ buf_size → (readline_loop B buf_size timeout fuel s).i ≤ buf_size)
        ∧ ∀ j : Int, (j < s.i ∨ buf_size ≤ j) →
            (readline_loop B buf_size timeout fuel s).userbuf.mem j = s.userbuf.mem j := by
  induction fuel with
  | zero =>
    intro s
    exact ⟨⟨[], by simp [readline_loop], by simp⟩, by simp [readline_loop], by simp [readline_loop],
      by simp [readline_loop]⟩
  | succ fuel ih =>
    intro s
    unfold readline_loop
    by_cases hlt : s.i < buf_size
    · simp only [hlt, if_true]
      split
      · exact ⟨⟨[], by simp, by simp⟩, le_refl _, fun h => h, fun _ _ => rfl⟩
      · split
        · exact ⟨⟨[], by simp, by simp⟩, le_refl _, fun h => h, fun _ _ => rfl⟩
        · obtain ⟨⟨new, hnew, hb⟩, hi, hle, hmem⟩ := ih
            { cli := (urg3d_tcpclient_read B s.cli s.world 1 timeout).cli,
              world := (urg3d_tcpclient_read B s.cli s.world 1 timeout).world,
              userbuf := s.userbuf.store s.i ((urg3d_tcpclient_read B s.cli s.world 1 timeout).out.headD 0),
              i := s.i + 1, n := (urg3d_tcpclient_read B s.cli s.world 1 timeout).ret }
          simp only at hnew hb hi hle hmem
          refine ⟨⟨new ++ [s.i], ?_, ?_⟩, by omega, fun _ => hle (by omega), ?_⟩
          · rw [hnew]; simp [UserBuf.store]
          · intro j hj
            rcases List.mem_append.mp hj with h | h
            · have := hb j h; omega
            · simp at h; omega
          · intro j hj
            rw [hmem j (by omega)]
            simp only [UserBuf.store]
            rw [if_neg (by omega)]
    · rw [if_neg hlt]
      exact ⟨⟨[], by simp, by simp⟩, le_refl _, fun h => h, fun _ _ => rfl⟩

/-- C9: for `buf_size >= 1`, any handle (any pushback state), any world (any
behaviour of the reads) and any caller array, `urg3d_tcpclient_readline`
stores only to indices `0 .. buf_size - 1` and leaves every other cell as it
was; the final index `i` satisfies `0 <= i <= buf_size - 1`; `userbuf[i]` is
NUL on return; and a non-negative return value equals `i`. -/
theorem readline_in_bounds (B : Nat) (cli : Client) (w : World) (userbuf : UserBuf)
    (buf_size timeout : Int) (hbuf : 1 ≤ buf_size) :
    (∃ new : List Int,
        (urg3d_tcpclient_readline B cli w userbuf buf_size timeout).userbuf.written
            = new ++ userbuf.written
          ∧ ∀ j ∈ new, 0 ≤ j ∧ j ≤ buf_size - 1)
      ∧ (∀ j : Int, (j < 0 ∨ buf_size ≤ j) →
          (urg3d_tcpclient_readline B cli w userbuf buf_size timeout).userbuf.mem j = userbuf.mem j)
      ∧ 0 ≤ (urg3d_tcpclient_readline B cli w userbuf buf_size timeout).i
      ∧ (urg3d_tcpclient_readline B cli w userbuf buf_size timeout).i ≤ buf_size - 1
      ∧ (urg3d_tcpclient_readline B cli w userbuf buf_size timeout).userbuf.mem
          (urg3d_tcpclient_readline B cli w userbuf buf_size timeout).i = 0
      ∧ (0 ≤ (urg3d_tcpclient_readline B cli w userbuf buf_size timeout).ret →
          (urg3d_tcpclient_readline B cli w userbuf buf_size timeout).ret
            = (urg3d_tcpclient_readline B cli w userbuf buf_size timeout).i) := by
  -- the start
  have hstart : (∃ new0 : List Int, (readline_start cli w userbuf).userbuf.written = new0 ++ userbuf.written
        ∧ ∀ j ∈ new0, 0 ≤ j ∧ j ≤ buf_size - 1)
      ∧ (∀ j : Int, (j < 0 ∨ buf_size ≤ j) → (readline_start cli w userbuf).userbuf.mem j = userbuf.mem j)
      ∧ 0 ≤ (readline_start cli w userbuf).i ∧ (readline_start cli w userbuf).i ≤ buf_size := by
    unfold readline_start
    split
    · refine ⟨⟨[0], by simp [UserBuf.store], ?_⟩, ?_, by simp, by simpa using hbuf⟩
      · intro j hj; simp at hj; omega
      · intro j hj
        simp only [UserBuf.store]
        rw [if_neg (by omega)]
    · exact ⟨⟨[], by simp, by simp⟩, fun _ _ => rfl, by simp, by simp; omega⟩
  obtain ⟨⟨new0, hnew0, hb0⟩, hmem0, hi0, hle0⟩ := hstart
  obtain ⟨⟨new1, hnew1, hb1⟩, hi1, hle1, hmem1⟩ := readline_loop_bounds B buf_size timeout
    (buf_size - (readline_start cli w userbuf).i).toNat (readline_start cli w userbuf)
  have hle1 := hle1 hle0
  unfold urg3d_tcpclient_readline
  simp only
  generalize readline_loop B buf_size timeout (buf_size - (readline_start cli w userbuf).i).toNat
    (readline_start cli w userbuf) = s1 at hnew1 hi1 hle1 hmem1
  generalize readline_start cli w userbuf = s0 at hnew0 hmem0 hi0 hle0 hnew1 hb1 hi1 hmem1
  unfold readline_finish
  by_cases hfull : s1.i ≥ buf_size
  · simp only [hfull, if_true]
    have hwr : ((s1.userbuf.store (buf_size - 1) 0).store (s1.i - 1) 0).written
        = ([s1.i - 1, buf_size - 1] ++ new1 ++ new0) ++ userbuf.written := by
      simp [UserBuf.store, hnew1, hnew0]
    have hbnd : ∀ j ∈ [s1.i - 1, buf_size - 1] ++ new1 ++ new0, 0 ≤ j ∧ j ≤ buf_size - 1 := by
      intro j hj
      simp only [List.mem_append, List.mem_cons, List.mem_singleton, List.not_mem_nil,
        or_false] at hj
      rcases hj with (((h | h) | h) | h)
      · omega
      · omega
      · have := hb1 j h; omega
      · exact hb0 j h
    have hout : ∀ j : Int, (j < 0 ∨ buf_size ≤ j) →
        ((s1.userbuf.store (buf_size - 1) 0).store (s1.i - 1) 0).mem j = userbuf.mem j := by
      intro j hj
      simp only [UserBuf.store]
      rw [if_neg (by omega), if_neg (by omega), hmem1 j (by omega), hmem0 j hj]
    split
    · exact ⟨⟨_, hwr, hbnd⟩, hout, by simp only; omega, by simp only; omega,
        by simp [UserBuf.store], by simp⟩
    · exact ⟨⟨_, hwr, hbnd⟩, hout, by simp only; omega, by simp only; omega,
        by simp [UserBuf.store], fun _ => rfl⟩
  · simp only [hfull, if_false]
    have hwr : (s1.userbuf.store s1.i 0).written = ([s1.i] ++ new1 ++ new0) ++ userbuf.written := by
      simp [UserBuf.store, hnew1, hnew0]
    have hbnd : ∀ j ∈ [s1.i] ++ new1 ++ new0, 0 ≤ j ∧ j ≤ buf_size - 1 := by
      intro j hj
      simp only [List.mem_append, List.mem_singleton] at hj
      rcases hj with ((h | h) | h)
      · omega
      · have := hb1 j h; omega
      · exact hb0 j h
    have hout : ∀ j : Int, (j < 0 ∨ buf_size ≤ j) →
        (s1.userbuf.store s1.i 0).mem j = userbuf.mem j := by
      intro j hj
      simp only [UserBuf.store]
      rw [if_neg (by omega), hmem1 j (by omega), hmem0 j hj]
    split
    · exact ⟨⟨_, hwr, hbnd⟩, hout, by simp only; omega, by simp only; omega,
        by simp [UserBuf.store], by simp⟩
    · exact ⟨⟨_, hwr, hbnd⟩, hout, by simp only; omega, by simp only; omega,
        by simp [UserBuf.store], fun _ => rfl⟩

/-- C9, at a handle with a pushed back byte, a caller array of two bytes and
a stream without terminator. -/
theorem readline_in_bounds_witness :
    (1 : Int) ≤ 2
      ∧ (urg3d_tcpclient_readline 255 { cliOpen with pushed_back := 101 } (worldWith [102, 103, 104])
          UserBuf.fresh 2 1000).userbuf.written = [1, 1, 1, 0]
      ∧ 0 ≤ (urg3d_tcpclient_readline 255 { cliOpen with pushed_back := 101 }
          (worldWith [102, 103, 104]) UserBuf.fresh 2 1000).i
      ∧ (urg3d_tcpclient_readline 255 { cliOpen with pushed_back := 101 }
          (worldWith [102, 103, 104]) UserBuf.fresh 2 1000).i ≤ 2 - 1
      ∧ (urg3d_tcpclient_readline 255 { cliOpen with pushed_back := 101 }
          (worldWith [102, 103, 104]) UserBuf.fresh 2 1000).userbuf.mem
          (urg3d_tcpclient_readline 255 { cliOpen with pushed_back := 101 }
            (worldWith [102, 103, 104]) UserBuf.fresh 2 1000).i = 0 :=
  ⟨by decide, by decide,
    (readline_in_bounds 255 { cliOpen with pushed_back := 101 } (worldWith [102, 103, 104])
      UserBuf.fresh 2 1000 (by decide)).2.2.1,
    (readline_in_bounds 255 { cliOpen with pushed_back := 101 } (worldWith [102, 103, 104])
      UserBuf.fresh 2 1000 (by decide)).2.2.2.1,
    (readline_in_bounds 255 { cliOpen with pushed_back := 101 } (worldWith [102, 103, 104])
      UserBuf.fresh 2 1000 (by decide)).2.2.2.2.1⟩

/-- The loop of `urg3d_tcpclient_readline` on a line that fits: it stores the
bytes of the line from index `i` on, consumes the line and its terminator,
and stops with `n = 1`. -/
theorem readline_loop_line (B : Nat) (buf_size timeout : Int) (term : Nat)
    (hterm : term = 10 ∨ term = 13) :
    ∀ (line : List Nat) (s : LineState),
      (∀ b ∈ line, b ≠ 10 ∧ b ≠ 13) →
      s.i + (line.length : Int) < buf_size →
      Delivers B timeout s.cli s.world (line ++ [term]) →
      (readline_loop B buf_size timeout (buf_size - s.i).toNat s).i = s.i + (line.length : Int)
        ∧ (readline_loop B buf_size timeout (buf_size - s.i).toNat s).n = 1
        ∧ ((readline_loop B buf_size timeout (buf_size - s.i).toNat s).cli,
            (readline_loop B buf_size timeout (buf_size - s.i).toNat s).world)
            = afterReads B timeout (line.length + 1) (s.cli, s.world)
        ∧ (∀ k : Nat, k < line.length →
            (readline_loop B buf_size timeout (buf_size - s.i).toNat s).userbuf.mem (s.i + (k : Int))
              = line.getD k 0)
        ∧ (∀ j : Int, (j < s.i ∨ s.i + (line.length : Int) ≤ j) →
            (readline_loop B buf_size timeout (buf_size - s.i).toNat s).userbuf.mem j
              = s.userbuf.mem j) := by
  intro line
  induction line with
  | nil =>
    intro s _ hfit hdel
    simp only [List.length_nil, Nat.cast_zero, add_zero] at hfit
    obtain ⟨k, hk⟩ : ∃ k, (buf_size - s.i).toNat = k + 1 := ⟨(buf_size - s.i).toNat - 1, by omega⟩
    simp only [List.nil_append, Delivers] at hdel
    obtain ⟨hret, hout, _⟩ := hdel
    rw [hk]
    unfold readline_loop
    rw [if_pos hfit]
    simp only [hret, hout, List.headD_cons]
    rw [if_neg (by decide), if_pos hterm]
    simp [afterReads]
  | cons b rest ih =>
    intro s hline hfit hdel
    simp only [List.length_cons, Nat.cast_add, Nat.cast_one] at hfit
    obtain ⟨k, hk⟩ : ∃ k, (buf_size - s.i).toNat = k + 1 := ⟨(buf_size - s.i).toNat - 1, by omega⟩
    have hk2 : k = (buf_size - (s.i + 1)).toNat := by omega
    simp only [List.cons_append, Delivers] at hdel
    obtain ⟨hret, hout, hrest⟩ := hdel
    have hb := hline b (List.mem_cons_self _ _)
    rw [hk]
    unfold readline_loop
    rw [if_pos (by omega)]
    simp only [hret, hout, List.headD_cons]
    rw [if_neg (by decide), if_neg (by simp [hb.1, hb.2])]
    have ih2 := ih
      { cli := (urg3d_tcpclient_read B s.cli s.world 1 timeout).cli,
        world := (urg3d_tcpclient_read B s.cli s.world 1 timeout).world,
        userbuf := s.userbuf.store s.i b, i := s.i + 1, n := 1 }
      (fun x hx => hline x (List.mem_cons_of_mem _ hx)) (by simp only; omega) hrest
    simp only at ih2
    rw [← hk2] at ih2
    obtain ⟨h1, h2, h3, h4, h5⟩ := ih2
    refine ⟨by rw [h1]; simp only [List.length_cons, Nat.cast_add, Nat.cast_one]; omega, h2, ?_, ?_, ?_⟩
    · rw [h3]; simp [afterReads]
    · intro j hj
      cases j with
      | zero =>
        rw [Nat.cast_zero, add_zero, h5 s.i (by omega)]
        simp [UserBuf.store]
      | succ j =>
        have := h4 j (by simpa using hj)
        rw [show s.i + ((j + 1 : Nat) : Int) = s.i + 1 + (j : Int) by push_cast; omega, this]
        simp
    · intro j hj
      simp only [List.length_cons, Nat.cast_add, Nat.cast_one] at hj
      rw [h5 j (by omega)]
      simp only [UserBuf.store]
      rw [if_neg (by omega)]

/-- The receives of `urg3d_tcpclient_read` do not change the pushback slot. -/
theorem read_socket_pushed_back (B : Nat) (cli : Client) (w : World) (req_size timeout : Int)
    (out : List Nat) (rem_size num_in_buf : Int) :
    (urg3d_tcpclient_read_socket B cli w req_size timeout out rem_size num_in_buf).cli.pushed_back
      = cli.pushed_back := by
  unfold urg3d_tcpclient_read_socket
  simp only [urg3d_tcpclient_buffer_read, urg3d_tcpclient_buffer_write]
  split_ifs <;> rfl

/-- Function `urg3d_tcpclient_read` does not change the pushback slot. -/
theorem read_pushed_back (B : Nat) (cli : Client) (w : World) (req_size timeout : Int) :
    (urg3d_tcpclient_read B cli w req_size timeout).cli.pushed_back = cli.pushed_back := by
  unfold urg3d_tcpclient_read
  simp only []
  split_ifs
  · rfl
  · rw [read_socket_pushed_back]; rfl
  · rw [read_socket_pushed_back]

/-- One-byte reads do not change the pushback slot. -/
theorem afterReads_pushed_back (B : Nat) (timeout : Int) (m : Nat) :
    ∀ s : Client × World, (afterReads B timeout m s).1.pushed_back = s.1.pushed_back := by
  induction m with
  | zero => intro s; rfl
  | succ m ih =>
    intro s
    simp only [afterReads]
    rw [ih, read_pushed_back]

/-- C7: a terminated line that fits. With no pushback pending, a stream of
`k` bytes that are neither CR nor LF followed by a CR or LF, all delivered by
`urg3d_tcpclient_read`, and `k < buf_size`: one `urg3d_tcpclient_readline`
call returns `k`; `userbuf[0..k-1]` are the `k` bytes and `userbuf[k]` is NUL;
no other cell is changed (the terminator is not copied); handle and world are
those after exactly `k + 1` one-byte reads; the pushback slot stays empty. -/
theorem readline_terminated_line (B : Nat) (cli : Client) (w : World) (userbuf : UserBuf)
    (buf_size timeout : Int) (line : List Nat) (term : Nat)
    (hpb : cli.pushed_back = -1)
    (hline : ∀ b ∈ line, b ≠ 10 ∧ b ≠ 13)
    (hterm : term = 10 ∨ term = 13)
    (hfit : (line.length : Int) < buf_size)
    (hdel : Delivers B timeout cli w (line ++ [term])) :
    (urg3d_tcpclient_readline B cli w userbuf buf_size timeout).ret = (line.length : Int)
      ∧ (urg3d_tcpclient_readline B cli w userbuf buf_size timeout).userbuf.contents line.length
          = line
      ∧ (urg3d_tcpclient_readline B cli w userbuf buf_size timeout).userbuf.mem (line.length : Int)
          = 0
      ∧ (∀ j : Int, (j < 0 ∨ (line.length : Int) < j) →
          (urg3d_tcpclient_readline B cli w userbuf buf_size timeout).userbuf.mem j = userbuf.mem j)
      ∧ ((urg3d_tcpclient_readline B cli w userbuf buf_size timeout).cli,
          (urg3d_tcpclient_readline B cli w userbuf buf_size timeout).world)
          = afterReads B timeout (line.length + 1) (cli, w)
      ∧ (urg3d_tcpclient_readline B cli w userbuf buf_size timeout).cli.pushed_back = -1 := by
  have hs0 : readline_start cli w userbuf
      = { cli := cli, world := w, userbuf := userbuf, i := 0, n := 0 } := by
    unfold readline_start
    rw [if_neg (by omega)]
  obtain ⟨h1, h2, h3, h4, h5⟩ := readline_loop_line B buf_size timeout term hterm line
    { cli := cli, world := w, userbuf := userbuf, i := 0, n := 0 } hline (by simpa using hfit) hdel
  simp only [zero_add] at h1 h4 h5
  have hpb2 := afterReads_pushed_back B timeout (line.length + 1) (cli, w)
  rw [← h3] at hpb2
  simp only at hpb2
  unfold urg3d_tcpclient_readline
  simp only [hs0]
  generalize readline_loop B buf_size timeout (buf_size - 0).toNat
    { cli := cli, world := w, userbuf := userbuf, i := 0, n := 0 } = s1 at h1 h2 h3 h4 h5 hpb2
  unfold readline_finish
  have hnf : ¬ (s1.i ≥ buf_size) := by omega
  have hne : ¬ (s1.i = 0 ∧ s1.n ≤ 0) := by rw [h2]; omega
  simp only [hnf, if_false, hne]
  refine ⟨h1, ?_, by simp [UserBuf.store, h1], ?_, h3, by rw [hpb2, hpb]⟩
  · apply List.ext_getElem
    · simp [UserBuf.contents]
    · intro k hk1 hk2
      simp only [UserBuf.contents, List.getElem_map, List.getElem_range, UserBuf.store]
      rw [if_neg (by omega), h4 k hk2]
      simp [List.getD_eq_getElem?_getD, hk2]
  · intro j hj
    simp only [UserBuf.store]
    rw [if_neg (by omega), h5 j (by omega)]

/-- C7, at the stream "abc" LF queued at the socket and a caller array of
ten bytes: the call returns 3 with "abc". -/
theorem readline_terminated_line_witness :
    Delivers 255 1000 cliOpen (worldWith [97, 98, 99, 10]) ([97, 98, 99] ++ [10])
      ∧ (urg3d_tcpclient_readline 255 cliOpen (worldWith [97, 98, 99, 10]) UserBuf.fresh 10 1000).ret
          = 3
      ∧ (urg3d_tcpclient_readline 255 cliOpen (worldWith [97, 98, 99, 10])
          UserBuf.fresh 10 1000).userbuf.contents 3 = [97, 98, 99]
      ∧ (urg3d_tcpclient_readline 255 cliOpen (worldWith [97, 98, 99, 10])
          UserBuf.fresh 10 1000).userbuf.mem 3 = 0
      ∧ (urg3d_tcpclient_readline 255 cliOpen (worldWith [97, 98, 99, 10])
          UserBuf.fresh 10 1000).cli.rb.data = []
      ∧ (urg3d_tcpclient_readline 255 cliOpen (worldWith [97, 98, 99, 10])
          UserBuf.fresh 10 1000).world.incoming = []
      ∧ (urg3d_tcpclient_readline 255 cliOpen (worldWith [97, 98, 99, 10])
          UserBuf.fresh 10 1000).cli.pushed_back = -1 :=
  have hdel : Delivers 255 1000 cliOpen (worldWith [97, 98, 99, 10]) ([97, 98, 99] ++ [10]) := by
    simp only [Delivers, List.cons_append, List.nil_append]
    decide
  have h := readline_terminated_line 255 cliOpen (worldWith [97, 98, 99, 10]) UserBuf.fresh 10 1000
    [97, 98, 99] 10 (by decide) (by decide) (by decide) (by decide) hdel
  ⟨hdel, h.1, h.2.1, h.2.2.1, by decide, by decide, h.2.2.2.2.2⟩

/-- C1: a line longer than the caller's buffer whose held byte is NUL. With
`buf_size = 2` and the stream 'a', NUL, 'b', LF the first call returns 1 with
"a" and stores 0 in the pushback slot; the second call does not emit the held
NUL: it returns 1 with "b", and the slot still holds 0. The two outputs
together are 'a', 'b', not the stream bytes 'a', NUL, 'b'. -/
theorem readline_loses_held_nul :
    Delivers 255 1000 cliOpen (worldWith [97, 0, 98, 10]) [97, 0, 98, 10]
      ∧ (urg3d_tcpclient_readline 255 cliOpen (worldWith [97, 0, 98, 10]) UserBuf.fresh 2 1000).ret = 1
      ∧ (urg3d_tcpclient_readline 255 cliOpen (worldWith [97, 0, 98, 10])
          UserBuf.fresh 2 1000).userbuf.contents 1 = [97]
      ∧ (urg3d_tcpclient_readline 255 cliOpen (worldWith [97, 0, 98, 10])
          UserBuf.fresh 2 1000).cli.pushed_back = 0
      ∧ (urg3d_tcpclient_readline 255
          (urg3d_tcpclient_readline 255 cliOpen (worldWith [97, 0, 98, 10]) UserBuf.fresh 2 1000).cli
          (urg3d_tcpclient_readline 255 cliOpen (worldWith [97, 0, 98, 10]) UserBuf.fresh 2 1000).world
          UserBuf.fresh 2 1000).ret = 1
      ∧ (urg3d_tcpclient_readline 255
          (urg3d_tcpclient_readline 255 cliOpen (worldWith [97, 0, 98, 10]) UserBuf.fresh 2 1000).cli
          (urg3d_tcpclient_readline 255 cliOpen (worldWith [97, 0, 98, 10]) UserBuf.fresh 2 1000).world
          UserBuf.fresh 2 1000).userbuf.contents 1 = [98]
      ∧ (urg3d_tcpclient_readline 255
          (urg3d_tcpclient_readline 255 cliOpen (worldWith [97, 0, 98, 10]) UserBuf.fresh 2 1000).cli
          (urg3d_tcpclient_readline 255 cliOpen (worldWith [97, 0, 98, 10]) UserBuf.fresh 2 1000).world
          UserBuf.fresh 2 1000).cli.pushed_back = 0 := by
  refine ⟨?_, by decide, by decide, by decide, by decide, by decide, by decide⟩
  simp only [Delivers]
  decide

/-- C4: with a pushed back byte pending and `buf_size = 1`,
`urg3d_tcpclient_readline` returns -1 without calling
`urg3d_tcpclient_read`: the world is unchanged and the byte is back in the
pushback slot. -/
theorem readline_negative_with_pushback_pending :
    ({ cliOpen with pushed_back := 101 } : Client).pushed_back > 0
      ∧ (urg3d_tcpclient_readline 255 { cliOpen with pushed_back := 101 } (worldWith [102, 10])
          UserBuf.fresh 1 1000).ret = -1
      ∧ (urg3d_tcpclient_readline 255 { cliOpen with pushed_back := 101 } (worldWith [102, 10])
          UserBuf.fresh 1 1000).world = worldWith [102, 10]
      ∧ (urg3d_tcpclient_readline 255 { cliOpen with pushed_back := 101 } (worldWith [102, 10])
          UserBuf.fresh 1 1000).cli.pushed_back = 101 := by
  decide

/-- When the loop of `urg3d_tcpclient_readline` ends with the caller array
full, `n` is positive if it was positive on entry. -/
theorem readline_loop_full_n (B : Nat) (buf_size timeout : Int) (fuel : Nat) :
    ∀ s : LineState, 0 < s.n →
      buf_size ≤ (readline_loop B buf_size timeout fuel s).i →
      0 < (readline_loop B buf_size timeout fuel s).n := by
  induction fuel with
  | zero => intro s hn _; simpa [readline_loop] using hn
  | succ fuel ih =>
    intro s hn
    unfold readline_loop
    by_cases hlt : s.i < buf_size
    · rw [if_pos hlt]
      simp only
      split
      · intro h; simp only at h; omega
      · rename_i hpos
        split
        · intro h; simp only at h; omega
        · exact ih _ (by simp only; omega)
    · rw [if_neg hlt]
      exact fun _ => hn

/-- The return value of `urg3d_tcpclient_readline` in terms of the loop result. -/
theorem readline_finish_ret (buf_size : Int) (s1 : LineState) :
    (readline_finish buf_size s1).ret =
      if s1.i ≥ buf_size then (if s1.i - 1 = 0 ∧ s1.n ≤ 0 then -1 else s1.i - 1)
      else (if s1.i = 0 ∧ s1.n ≤ 0 then -1 else s1.i) := by
  unfold readline_finish
  by_cases h : s1.i ≥ buf_size
  · simp only [h, if_true]
    split_ifs <;> rfl
  · simp only [h, if_false]
    split_ifs <;> rfl

/-- Sign of the result of `urg3d_tcpclient_readline` when `buf_size >= 1`, and
`buf_size >= 2` if the pushback slot is positive: the result is negative
exactly when the slot is not positive and the first one-byte read returns a
non-positive value. -/
theorem readline_negative_iff (B : Nat) (cli : Client) (w : World) (userbuf : UserBuf)
    (buf_size timeout : Int) (hbuf : 1 ≤ buf_size)
    (hpb : cli.pushed_back > 0 → 2 ≤ buf_size) :
    (urg3d_tcpclient_readline B cli w userbuf buf_size timeout).ret < 0
      ↔ (¬ cli.pushed_back > 0 ∧ (urg3d_tcpclient_read B cli w 1 timeout).ret ≤ 0) := by
  unfold urg3d_tcpclient_readline
  simp only
  rw [readline_finish_ret]
  by_cases hp : cli.pushed_back > 0
  · have h2 := hpb hp
    have hs0 : readline_start cli w userbuf
        = { cli := { cli with pushed_back := -1 }, world := w,
            userbuf := userbuf.store 0 (cli.pushed_back % 256).toNat, i := 1, n := 0 } := by
      unfold readline_start
      rw [if_pos hp]
    rw [hs0]
    obtain ⟨_, hi1, hle1, _⟩ := readline_loop_bounds B buf_size timeout (buf_size - 1).toNat
      { cli := { cli with pushed_back := -1 }, world := w,
        userbuf := userbuf.store 0 (cli.pushed_back % 256).toNat, i := 1, n := 0 }
    simp only at hi1 hle1
    have hle1 := hle1 (by omega)
    generalize readline_loop B buf_size timeout (buf_size - 1).toNat
      { cli := { cli with pushed_back := -1 }, world := w,
        userbuf := userbuf.store 0 (cli.pushed_back % 256).toNat, i := 1, n := 0 } = s1 at hi1 hle1
    simp only [hp, not_true_eq_false, false_and, iff_false, not_lt]
    split_ifs <;> omega
  · have hs0 : readline_start cli w userbuf
        = { cli := cli, world := w, userbuf := userbuf, i := 0, n := 0 } := by
      unfold readline_start
      rw [if_neg hp]
    rw [hs0]
    simp only [hp, not_false_eq_true, true_and]
    obtain ⟨k, hk⟩ : ∃ k, (buf_size - 0).toNat = k + 1 := ⟨(buf_size - 0).toNat - 1, by omega⟩
    simp only [hk]
    have hfacts :
        ((urg3d_tcpclient_read B cli w 1 timeout).ret ≤ 0 →
          (readline_loop B buf_size timeout (k + 1)
            { cli := cli, world := w, userbuf := userbuf, i := 0, n := 0 }).i = 0
          ∧ (readline_loop B buf_size timeout (k + 1)
            { cli := cli, world := w, userbuf := userbuf, i := 0, n := 0 }).n ≤ 0)
        ∧ (0 < (urg3d_tcpclient_read B cli w 1 timeout).ret →
          ((readline_loop B buf_size timeout (k + 1)
            { cli := cli, world := w, userbuf := userbuf, i := 0, n := 0 }).i = 0
          ∧ 0 < (readline_loop B buf_size timeout (k + 1)
            { cli := cli, world := w, userbuf := userbuf, i := 0, n := 0 }).n)
          ∨ (1 ≤ (readline_loop B buf_size timeout (k + 1)
            { cli := cli, world := w, userbuf := userbuf, i := 0, n := 0 }).i
          ∧ (readline_loop B buf_size timeout (k + 1)
            { cli := cli, world := w, userbuf := userbuf, i := 0, n := 0 }).i ≤ buf_size
          ∧ (buf_size ≤ (readline_loop B buf_size timeout (k + 1)
            { cli := cli, world := w, userbuf := userbuf, i := 0, n := 0 }).i →
              0 < (readline_loop B buf_size timeout (k + 1)
            { cli := cli, world := w, userbuf := userbuf, i := 0, n := 0 }).n))) := by
      unfold readline_loop
      have hlt : ({ cli := cli, world := w, userbuf := userbuf, i := 0, n := 0 } : LineState).i
          < buf_size := by simp only; omega
      rw [if_pos hlt]
      simp only
      by_cases hr : (urg3d_tcpclient_read B cli w 1 timeout).ret ≤ 0
      · rw [if_pos hr]
        exact ⟨fun _ => ⟨rfl, hr⟩, fun h => by omega⟩
      · rw [if_neg hr]
        refine ⟨fun h => absurd h hr, fun hpos => ?_⟩
        split
        · exact Or.inl ⟨rfl, hpos⟩
        · right
          have hfn := readline_loop_full_n B buf_size timeout k
            { cli := (urg3d_tcpclient_read B cli w 1 timeout).cli,
              world := (urg3d_tcpclient_read B cli w 1 timeout).world,
              userbuf := userbuf.store 0 ((urg3d_tcpclient_read B cli w 1 timeout).out.headD 0),
              i := 0 + 1, n := (urg3d_tcpclient_read B cli w 1 timeout).ret } hpos
          obtain ⟨_, hi1, hle1, _⟩ := readline_loop_bounds B buf_size timeout k
            { cli := (urg3d_tcpclient_read B cli w 1 timeout).cli,
              world := (urg3d_tcpclient_read B cli w 1 timeout).world,
              userbuf := userbuf.store 0 ((urg3d_tcpclient_read B cli w 1 timeout).out.headD 0),
              i := 0 + 1, n := (urg3d_tcpclient_read B cli w 1 timeout).ret }
          simp only at hi1 hle1
          exact ⟨by omega, hle1 (by omega), hfn⟩
    generalize readline_loop B buf_size timeout (k + 1)
      { cli := cli, world := w, userbuf := userbuf, i := 0, n := 0 } = s1 at hfacts
    obtain ⟨hA, hB⟩ := hfacts
    by_cases hr : (urg3d_tcpclient_read B cli w 1 timeout).ret ≤ 0
    · have := hA hr
      simp only [hr, iff_true]
      split_ifs <;> omega
    · have := hB (by omega)
      simp only [hr, iff_false, not_lt]
      split_ifs <;> omega

/-- A delivered stream splits: its first part is delivered, and the second part
is delivered from the handle and world after reading the first. -/
theorem Delivers_append (B : Nat) (timeout : Int) :
    ∀ (xs ys : List Nat) (cli : Client) (w : World),
      Delivers B timeout cli w (xs ++ ys) →
      Delivers B timeout cli w xs
        ∧ Delivers B timeout (afterReads B timeout xs.length (cli, w)).1
            (afterReads B timeout xs.length (cli, w)).2 ys := by
  intro xs
  induction xs with
  | nil => intro ys cli w h; exact ⟨trivial, by simpa [afterReads] using h⟩
  | cons x xs ih =>
    intro ys cli w h
    simp only [List.cons_append, Delivers] at h
    obtain ⟨h1, h2, h3⟩ := h
    obtain ⟨h4, h5⟩ := ih ys _ _ h3
    exact ⟨⟨h1, h2, h4⟩, by simpa [afterReads] using h5⟩

/-- The loop of `urg3d_tcpclient_readline` on bytes that fill the caller array
exactly: all are stored and the loop ends with `i = buf_size`. -/
theorem readline_loop_fill (B : Nat) (buf_size timeout : Int) :
    ∀ (line : List Nat) (s : LineState),
      (∀ b ∈ line, b ≠ 10 ∧ b ≠ 13) →
      s.i + (line.length : Int) = buf_size →
      Delivers B timeout s.cli s.world line →
      (readline_loop B buf_size timeout (buf_size - s.i).toNat s).i = buf_size
        ∧ (readline_loop B buf_size timeout (buf_size - s.i).toNat s).n
            = (if line = [] then s.n else 1)
        ∧ ((readline_loop B buf_size timeout (buf_size - s.i).toNat s).cli,
            (readline_loop B buf_size timeout (buf_size - s.i).toNat s).world)
            = afterReads B timeout line.length (s.cli, s.world)
        ∧ (∀ k : Nat, k < line.length →
            (readline_loop B buf_size timeout (buf_size - s.i).toNat s).userbuf.mem (s.i + (k : Int))
              = line.getD k 0)
        ∧ (∀ j : Int, (j < s.i ∨ buf_size ≤ j) →
            (readline_loop B buf_size timeout (buf_size - s.i).toNat s).userbuf.mem j
              = s.userbuf.mem j) := by
  intro line
  induction line with
  | nil =>
    intro s _ hfit _
    simp only [List.length_nil, Nat.cast_zero, add_zero] at hfit
    have hk : (buf_size - s.i).toNat = 0 := by omega
    rw [hk]
    simp [readline_loop, afterReads, hfit]
  | cons b rest ih =>
    intro s hline hfit hdel
    simp only [List.length_cons, Nat.cast_add, Nat.cast_one] at hfit
    obtain ⟨k, hk⟩ : ∃ k, (buf_size - s.i).toNat = k + 1 := ⟨(buf_size - s.i).toNat - 1, by omega⟩
    have hk2 : k = (buf_size - (s.i + 1)).toNat := by omega
    simp only [Delivers] at hdel
    obtain ⟨hret, hout, hrest⟩ := hdel
    have hb := hline b (List.mem_cons_self _ _)
    rw [hk]
    unfold readline_loop
    rw [if_pos (by omega)]
    simp only [hret, hout, List.headD_cons]
    rw [if_neg (by decide), if_neg (by simp [hb.1, hb.2])]
    have ih2 := ih
      { cli := (urg3d_tcpclient_read B s.cli s.world 1 timeout).cli,
        world := (urg3d_tcpclient_read B s.cli s.world 1 timeout).world,
        userbuf := s.userbuf.store s.i b, i := s.i + 1, n := 1 }
      (fun x hx => hline x (List.mem_cons_of_mem _ hx)) (by simp only; omega) hrest
    simp only at ih2
    rw [← hk2] at ih2
    obtain ⟨h1, h2, h3, h4, h5⟩ := ih2
    refine ⟨h1, ?_, ?_, ?_, ?_⟩
    · rw [h2]; simp
    · rw [h3]; simp [afterReads]
    · intro j hj
      cases j with
      | zero =>
        rw [Nat.cast_zero, add_zero, h5 s.i (by omega)]
        simp [UserBuf.store]
      | succ j =>
        have := h4 j (by simpa using hj)
        rw [show s.i + ((j + 1 : Nat) : Int) = s.i + 1 + (j : Int) by push_cast; omega, this]
        simp
    · intro j hj
      rw [h5 j (by omega)]
      simp only [UserBuf.store]
      rw [if_neg (by omega)]

/-- The first cells of a caller array, read off index by index. -/
theorem contents_eq_of_getD (u : UserBuf) (line : List Nat)
    (h : ∀ k : Nat, k < line.length → u.mem (k : Int) = line.getD k 0) :
    u.contents line.length = line := by
  apply List.ext_getElem
  · simp [UserBuf.contents]
  · intro k hk1 hk2
    simp only [UserBuf.contents, List.getElem_map, List.getElem_range]
    rw [h k hk2]
    simp [List.getD_eq_getElem?_getD, hk2]

/-- A line longer than the caller array, first call: with no pushback pending
and `buf_size` bytes without CR or LF delivered, the call returns
`buf_size - 1` with the first `buf_size - 1` bytes, and the slot holds the
last byte read, masked to 8 bits. -/
theorem readline_full_buffer (B : Nat) (cli : Client) (w : World) (userbuf : UserBuf)
    (buf_size timeout : Int) (pre : List Nat) (b : Nat)
    (hpb : cli.pushed_back = -1)
    (hlen : (pre.length : Int) + 1 = buf_size) (hbuf : 2 ≤ buf_size)
    (hpre : ∀ x ∈ pre, x ≠ 10 ∧ x ≠ 13) (hb : b ≠ 10 ∧ b ≠ 13)
    (hdel : Delivers B timeout cli w (pre ++ [b])) :
    (urg3d_tcpclient_readline B cli w userbuf buf_size timeout).ret = buf_size - 1
      ∧ (urg3d_tcpclient_readline B cli w userbuf buf_size timeout).userbuf.contents pre.length = pre
      ∧ (urg3d_tcpclient_readline B cli w userbuf buf_size timeout).userbuf.mem (buf_size - 1) = 0
      ∧ (urg3d_tcpclient_readline B cli w userbuf buf_size timeout).cli
          = { (afterReads B timeout (pre.length + 1) (cli, w)).1 with
              pushed_back := ((b % 256 : Nat) : Int) }
      ∧ (urg3d_tcpclient_readline B cli w userbuf buf_size timeout).world
          = (afterReads B timeout (pre.length + 1) (cli, w)).2 := by
  have hs0 : readline_start cli w userbuf
      = { cli := cli, world := w, userbuf := userbuf, i := 0, n := 0 } := by
    unfold readline_start
    rw [if_neg (by omega)]
  have hall : ∀ x ∈ pre ++ [b], x ≠ 10 ∧ x ≠ 13 := by
    intro x hx
    rcases List.mem_append.mp hx with h | h
    · exact hpre x h
    · simp at h; rw [h]; exact hb
  obtain ⟨h1, h2, h3, h4, h5⟩ := readline_loop_fill B buf_size timeout (pre ++ [b])
    { cli := cli, world := w, userbuf := userbuf, i := 0, n := 0 } hall
    (by simp only [List.length_append, List.length_singleton]; push_cast; omega) hdel
  simp only [zero_add, List.length_append, List.length_singleton] at h1 h2 h3 h4 h5
  have hlast : (pre ++ [b]).getD pre.length 0 = b := by simp
  have hm : ∀ k : Nat, k < pre.length → (pre ++ [b]).getD k 0 = pre.getD k 0 := by
    intro k hk
    simp [List.getD_eq_getElem?_getD, List.getElem?_append_left hk]
  unfold urg3d_tcpclient_readline
  simp only [hs0]
  generalize readline_loop B buf_size timeout (buf_size - 0).toNat
    { cli := cli, world := w, userbuf := userbuf, i := 0, n := 0 } = s1 at h1 h2 h3 h4 h5
  have hcli : s1.cli = (afterReads B timeout (pre.length + 1) (cli, w)).1 := by rw [← h3]
  have hworld : s1.world = (afterReads B timeout (pre.length + 1) (cli, w)).2 := by rw [← h3]
  have hmb : s1.userbuf.mem (buf_size - 1) = b := by
    have := h4 pre.length (by omega)
    rw [hlast] at this
    rw [← this]
    congr 1
    omega
  unfold readline_finish
  have hfull : s1.i ≥ buf_size := by omega
  have hne : ¬ (s1.i - 1 = 0 ∧ s1.n ≤ 0) := by omega
  simp only [hfull, if_true, hne, if_false]
  refine ⟨by omega, ?_, ?_, ?_, hworld⟩
  · apply contents_eq_of_getD
    intro k hk
    simp only [UserBuf.store]
    rw [if_neg (by omega), if_neg (by omega), h4 k (by omega), hm k hk]
  · simp only [UserBuf.store]
    rw [if_pos (by omega)]
  · rw [hmb, hcli]

/-- A call entered with a positive pushback slot: the held byte is the first
output byte, the following line is appended, and the slot is cleared. -/
theorem readline_resume_pushback (B : Nat) (cli : Client) (w : World) (userbuf : UserBuf)
    (buf_size timeout : Int) (rest : List Nat) (term : Nat)
    (hpb : 0 < cli.pushed_back)
    (hrest : ∀ x ∈ rest, x ≠ 10 ∧ x ≠ 13) (hterm : term = 10 ∨ term = 13)
    (hfit : (rest.length : Int) + 1 < buf_size)
    (hdel : Delivers B timeout { cli with pushed_back := -1 } w (rest ++ [term])) :
    (urg3d_tcpclient_readline B cli w userbuf buf_size timeout).ret = (rest.length : Int) + 1
      ∧ (urg3d_tcpclient_readline B cli w userbuf buf_size timeout).userbuf.contents
          (rest.length + 1) = (cli.pushed_back % 256).toNat :: rest
      ∧ (urg3d_tcpclient_readline B cli w userbuf buf_size timeout).userbuf.mem
          ((rest.length : Int) + 1) = 0
      ∧ ((urg3d_tcpclient_readline B cli w userbuf buf_size timeout).cli,
          (urg3d_tcpclient_readline B cli w userbuf buf_size timeout).world)
          = afterReads B timeout (rest.length + 1) ({ cli with pushed_back := -1 }, w)
      ∧ (urg3d_tcpclient_readline B cli w userbuf buf_size timeout).cli.pushed_back = -1 := by
  have hs0 : readline_start cli w userbuf
      = { cli := { cli with pushed_back := -1 }, world := w,
          userbuf := userbuf.store 0 (cli.pushed_back % 256).toNat, i := 1, n := 0 } := by
    unfold readline_start
    rw [if_pos hpb]
  obtain ⟨h1, h2, h3, h4, h5⟩ := readline_loop_line B buf_size timeout term hterm rest
    { cli := { cli with pushed_back := -1 }, world := w,
      userbuf := userbuf.store 0 (cli.pushed_back % 256).toNat, i := 1, n := 0 } hrest
    (by simp only; omega) hdel
  simp only at h1 h2 h3 h4 h5
  have hpb2 := afterReads_pushed_back B timeout (rest.length + 1) ({ cli with pushed_back := -1 }, w)
  rw [← h3] at hpb2
  simp only at hpb2
  unfold urg3d_tcpclient_readline
  simp only [hs0]
  generalize readline_loop B buf_size timeout (buf_size - 1).toNat
    { cli := { cli with pushed_back := -1 }, world := w,
      userbuf := userbuf.store 0 (cli.pushed_back % 256).toNat, i := 1, n := 0 } = s1
    at h1 h2 h3 h4 h5 hpb2
  unfold readline_finish
  have hnf : ¬ (s1.i ≥ buf_size) := by omega
  have hne : ¬ (s1.i = 0 ∧ s1.n ≤ 0) := by omega
  simp only [hnf, if_false, hne]
  refine ⟨by omega, ?_, ?_, h3, hpb2⟩
  · have := contents_eq_of_getD (s1.userbuf.store s1.i 0) ((cli.pushed_back % 256).toNat :: rest) ?_
    · simpa using this
    · intro k hk
      simp only [List.length_cons] at hk
      simp only [UserBuf.store]
      rw [if_neg (by omega)]
      cases k with
      | zero =>
        rw [Nat.cast_zero, h5 0 (by omega)]
        simp [UserBuf.store]
      | succ k =>
        have := h4 k (by omega)
        rw [show (((k + 1 : Nat)) : Int) = 1 + (k : Int) by push_cast; omega, this]
        simp
  · simp only [UserBuf.store]
    rw [if_pos (by omega)]

/-- Reading `m + n` bytes is reading `m` and then `n`. -/
theorem afterReads_add (B : Nat) (timeout : Int) (m n : Nat) :
    ∀ s : Client × World,
      afterReads B timeout (m + n) s = afterReads B timeout n (afterReads B timeout m s) := by
  induction m with
  | zero => intro s; simp [afterReads]
  | succ m ih =>
    intro s
    rw [show m + 1 + n = (m + n) + 1 by omega]
    simp only [afterReads]
    rw [ih]

/-- A line longer than the caller array whose held byte is 1..255: the first
call returns the first `buf_size - 1` bytes and holds the next one; the second
call starts with the held byte and continues to the terminator; together the
two calls consumed the stream once, in order. -/
theorem readline_long_line_two_calls (B : Nat) (cli : Client) (w : World) (ub1 ub2 : UserBuf)
    (buf_size timeout : Int) (pre : List Nat) (b : Nat) (rest : List Nat) (term : Nat)
    (hpb : cli.pushed_back = -1)
    (hlen : (pre.length : Int) + 1 = buf_size) (hbuf : 2 ≤ buf_size)
    (hpre : ∀ x ∈ pre, x ≠ 10 ∧ x ≠ 13) (hb : b ≠ 10 ∧ b ≠ 13)
    (hbyte : 0 < b ∧ b < 256)
    (hrest : ∀ x ∈ rest, x ≠ 10 ∧ x ≠ 13) (hterm : term = 10 ∨ term = 13)
    (hfit : (rest.length : Int) + 1 < buf_size)
    (hdel : Delivers B timeout cli w ((pre ++ [b]) ++ (rest ++ [term]))) :
    (urg3d_tcpclient_readline B cli w ub1 buf_size timeout).ret = buf_size - 1
      ∧ (urg3d_tcpclient_readline B cli w ub1 buf_size timeout).userbuf.contents pre.length = pre
      ∧ (urg3d_tcpclient_readline B cli w ub1 buf_size timeout).cli.pushed_back = (b : Int)
      ∧ (urg3d_tcpclient_readline B
          (urg3d_tcpclient_readline B cli w ub1 buf_size timeout).cli
          (urg3d_tcpclient_readline B cli w ub1 buf_size timeout).world
          ub2 buf_size timeout).ret = (rest.length : Int) + 1
      ∧ (urg3d_tcpclient_readline B
          (urg3d_tcpclient_readline B cli w ub1 buf_size timeout).cli
          (urg3d_tcpclient_readline B cli w ub1 buf_size timeout).world
          ub2 buf_size timeout).userbuf.contents (rest.length + 1) = b :: rest
      ∧ (urg3d_tcpclient_readline B
          (urg3d_tcpclient_readline B cli w ub1 buf_size timeout).cli
          (urg3d_tcpclient_readline B cli w ub1 buf_size timeout).world
          ub2 buf_size timeout).cli.pushed_back = -1
      ∧ ((urg3d_tcpclient_readline B
            (urg3d_tcpclient_readline B cli w ub1 buf_size timeout).cli
            (urg3d_tcpclient_readline B cli w ub1 buf_size timeout).world
            ub2 buf_size timeout).cli,
          (urg3d_tcpclient_readline B
            (urg3d_tcpclient_readline B cli w ub1 buf_size timeout).cli
            (urg3d_tcpclient_readline B cli w ub1 buf_size timeout).world
            ub2 buf_size timeout).world)
          = afterReads B timeout ((pre.length + 1) + (rest.length + 1)) (cli, w) := by
  obtain ⟨hd1, hd2⟩ := Delivers_append B timeout (pre ++ [b]) (rest ++ [term]) cli w hdel
  simp only [List.length_append, List.length_singleton] at hd2
  obtain ⟨f1, f2, _, f4, f5⟩ := readline_full_buffer B cli w ub1 buf_size timeout pre b hpb hlen
    hbuf hpre hb hd1
  have hmod : b % 256 = b := Nat.mod_eq_of_lt hbyte.2
  rw [hmod] at f4
  have hpb1 := afterReads_pushed_back B timeout (pre.length + 1) (cli, w)
  simp only [hpb] at hpb1
  generalize urg3d_tcpclient_readline B cli w ub1 buf_size timeout = r1 at f1 f2 f4 f5 ⊢
  have heta : ({ r1.cli with pushed_back := -1 } : Client)
      = (afterReads B timeout (pre.length + 1) (cli, w)).1 := by
    rw [f4]
    generalize (afterReads B timeout (pre.length + 1) (cli, w)).1 = c at hpb1
    cases c
    simp only at hpb1
    simp [hpb1]
  have hp1 : r1.cli.pushed_back = (b : Int) := by rw [f4]
  have hd3 : Delivers B timeout { r1.cli with pushed_back := -1 } r1.world (rest ++ [term]) := by
    rw [heta, f5]; exact hd2
  obtain ⟨g1, g2, _, g4, g5⟩ := readline_resume_pushback B r1.cli r1.world ub2 buf_size timeout
    rest term (by rw [hp1]; omega) hrest hterm hfit hd3
  refine ⟨f1, f2, hp1, g1, ?_, g5, ?_⟩
  · rw [g2, hp1]
    congr 1
  · rw [g4, heta, f5]
    exact (afterReads_add B timeout (pre.length + 1) (rest.length + 1) (cli, w)).symm

end Urg3d
